import Mathlib

/-!
Verification development for the data pipeline of `narrative_viz.py`.

The script is a linear pandas/altair dashboard.  Each section below gives a
shallow embedding of one stage of the pipeline, translated from the source:

* ranking of the 2024 happiness scores (`Series.rank(ascending=False)`,
  whose default method assigns tied values the average of their positions);
* the IEEE-style elementwise division used for the contribution ratios;
* the per-metric category filters of the world-map dashboard;
* the table normalisation steps (column selection, rename, concat, dropna,
  year exclusion) over an association-list table model;
* the per-country / per-year mean deviations;
* `pd.qcut(..., q=3)` tertile categorisation with linear-interpolation
  quantile edges and the duplicate-edge check.
-/

namespace NarrativeViz

/-! ### Ranking (line 85 of the script)

`df_2024["Rank"] = df_2024["Happiness Score"].rank(ascending=False)` uses the
pandas default tie method, which gives every member of a tie group the average
of the descending one-based positions that the group occupies: with `g` values
strictly greater and `t` values equal, the rank is `g + (t + 1)/2`. -/

/-- Rank of the value `x` within the column `xs`, as computed by
`Series.rank(ascending=False)` with the default (average) tie method. -/
def rankValue (xs : List ℚ) (x : ℚ) : ℚ :=
  ((xs.countP fun y => decide (x < y) : ℕ) : ℚ) +
    (((xs.countP fun y => decide (y = x) : ℕ) : ℚ) + 1) / 2

/-- The whole Rank column computed from the Happiness Score column. -/
def rankDesc (xs : List ℚ) : List ℚ :=
  xs.map (rankValue xs)

/-! ### Contribution ratios (lines 224-235)

The script divides six metric columns elementwise by the Happiness Score
column.  pandas delegates to IEEE-754 float division, so a zero divisor gives
a signed infinity (or NaN for 0/0), and NaN propagates; no exception is ever
raised.  Finite values are idealised as rationals, which is faithful for the
special-value propagation at issue here (signed zero is not modelled). -/

/-- A pandas float cell: a finite value, a signed infinity, or NaN. -/
inductive PFloat where
  | fin (q : ℚ)
  | inf
  | neginf
  | nan
  deriving DecidableEq, Repr

/-- IEEE-754 division as performed by pandas column division. -/
def pdiv : PFloat → PFloat → PFloat
  | PFloat.nan, _ => PFloat.nan
  | _, PFloat.nan => PFloat.nan
  | PFloat.fin a, PFloat.fin b =>
      if b = 0 then
        if a = 0 then PFloat.nan
        else if 0 < a then PFloat.inf
        else PFloat.neginf
      else PFloat.fin (a / b)
  | PFloat.fin _, PFloat.inf => PFloat.fin 0
  | PFloat.fin _, PFloat.neginf => PFloat.fin 0
  | PFloat.inf, PFloat.inf => PFloat.nan
  | PFloat.inf, PFloat.neginf => PFloat.nan
  | PFloat.neginf, PFloat.inf => PFloat.nan
  | PFloat.neginf, PFloat.neginf => PFloat.nan
  | PFloat.inf, PFloat.fin b => if b < 0 then PFloat.neginf else PFloat.inf
  | PFloat.neginf, PFloat.fin b => if b < 0 then PFloat.inf else PFloat.neginf

/-- One contribution-ratio cell: `df_2024[metric] / df_2024["Happiness Score"]`. -/
def contributionRatio (metric score : PFloat) : PFloat :=
  pdiv metric score

/-- One row of the single-year breakdown table `df_2024`. -/
structure BreakdownRow where
  country : String
  score : PFloat
  gdp : PFloat
  social : PFloat
  health : PFloat
  freedom : PFloat
  generosity : PFloat
  trust : PFloat
  deriving DecidableEq, Repr

/-- Lines 224-235: the six `_contribution` columns added to `df_2024`. -/
def addContributions (rows : List BreakdownRow) :
    List (BreakdownRow × PFloat × PFloat × PFloat × PFloat × PFloat × PFloat) :=
  rows.map fun r =>
    (r, contributionRatio r.gdp r.score, contributionRatio r.social r.score,
      contributionRatio r.health r.score, contributionRatio r.freedom r.score,
      contributionRatio r.generosity r.score, contributionRatio r.trust r.score)

/-! ### Per-metric category filters (lines 491-572)

Each of the six dropdowns holds either a concrete category or `None`
(rendered as "All", matching everything) and the chart applies one
`transform_filter` per dropdown, in sequence, to the row set. -/

/-- A tertile category label. -/
inductive Cat where
  | low
  | average
  | high
  deriving DecidableEq, Repr

/-- One row of `df_2024_factors` as seen by the dashboard filters. -/
structure FactorRow where
  country : String
  score : ℚ
  gdpCat : Cat
  socialCat : Cat
  healthCat : Cat
  freedomCat : Cat
  generosityCat : Cat
  trustCat : Cat
  deriving DecidableEq, Repr

/-- Whether a row category matches a dropdown state (`none` is "All"). -/
def matchesSel (sel : Option Cat) (c : Cat) : Bool :=
  match sel with
  | none => true
  | some s => decide (c = s)

/-- One `transform_filter` bound to the dropdown of a given metric. -/
def applyCatFilter (f : FactorRow → Cat) (sel : Option Cat)
    (rows : List FactorRow) : List FactorRow :=
  rows.filter fun r => matchesSel sel (f r)

end NarrativeViz

namespace NarrativeViz

/-- Every element of `l.zip (l.map f)` pairs a value with its own image. -/
theorem snd_eq_of_mem_zip_map {α β : Type} (f : α → β) :
    ∀ (l : List α), ∀ p ∈ l.zip (l.map f), p.2 = f p.1 := by
  intro l
  induction l with
  | nil => intro p hp; cases hp
  | cons a t ih =>
      intro p hp
      simp only [List.map_cons, List.zip_cons_cons, List.mem_cons] at hp
      rcases hp with h | h
      · subst h; rfl
      · exact ih p h

/-- C1, amended.  In the Rank column produced at line 85, two rows with equal
Happiness Score always receive equal ranks, and every rank is at least 1 and
is a half-integer (twice the rank is an integer); ranks need not be integers. -/
theorem rank_ties_equal_half_integer (xs : List ℚ) :
    (∀ p ∈ xs.zip (rankDesc xs), ∀ q ∈ xs.zip (rankDesc xs),
      p.1 = q.1 → p.2 = q.2) ∧
    (∀ r ∈ rankDesc xs, 1 ≤ r ∧ (2 * r).den = 1) := by
  constructor
  · intro p hp q hq hpq
    have h1 := snd_eq_of_mem_zip_map (rankValue xs) xs p hp
    have h2 := snd_eq_of_mem_zip_map (rankValue xs) xs q hq
    rw [h1, h2, hpq]
  · intro r hr
    rcases List.mem_map.mp hr with ⟨x, hx, hrx⟩
    subst hrx
    have ht : 0 < xs.countP fun y => decide (y = x) :=
      List.countP_pos_iff.mpr ⟨x, hx, by simp⟩
    constructor
    · have htq : (1 : ℚ) ≤ ((xs.countP fun y => decide (y = x) : ℕ) : ℚ) := by
        exact_mod_cast ht
      have hgq : (0 : ℚ) ≤ ((xs.countP fun y => decide (x < y) : ℕ) : ℚ) := by
        positivity
      unfold rankValue
      linarith
    · have : 2 * rankValue xs x =
          (((2 * (xs.countP fun y => decide (x < y)) +
            (xs.countP fun y => decide (y = x)) + 1 : ℕ)) : ℚ) := by
        unfold rankValue
        push_cast
        ring
      rw [this, Rat.den_natCast]

/-- Witness for `rank_ties_equal_half_integer` at the column `[5, 5]`, whose
Rank column is `[3/2, 3/2]`. -/
theorem rank_ties_equal_half_integer_witness :
    (3/2 : ℚ) ∈ rankDesc [5, 5] ∧ (1 : ℚ) ≤ 3/2 ∧ ((2 : ℚ) * (3/2)).den = 1 := by
  have hcol : rankDesc [5, 5] = [3/2, 3/2] := by norm_num [rankDesc, rankValue]
  have hmem : (3/2 : ℚ) ∈ rankDesc [5, 5] := by
    rw [hcol]; exact List.mem_cons_self _ _
  have h := (rank_ties_equal_half_integer [5, 5]).2 (3/2) hmem
  exact ⟨hmem, h.1, h.2⟩

/-- C1, counterexample.  On a column with one two-way tie the produced ranks
are `3/2`, which is not an integer, refuting the claim that every rank in the
normalized table is a positive integer. -/
theorem rank_not_integer_cex :
    rankDesc [5, 5] = [3/2, 3/2] ∧ ((3 : ℚ)/2).den ≠ 1 := by
  constructor
  · norm_num [rankDesc, rankValue]
  · norm_num

/-- C6, amended.  The contribution ratio of line 224-235 is IEEE division:
when the Happiness Score is absent (NaN) the ratio is NaN; when it is zero the
ratio is NaN, `+inf` or `-inf` according to the metric value; in every such
case the result is a defined special value (division never raises). -/
theorem contributionRatio_zero_or_absent (m s : PFloat)
    (h : s = PFloat.nan ∨ s = PFloat.fin 0) :
    (contributionRatio m s = PFloat.nan ∨ contributionRatio m s = PFloat.inf ∨
      contributionRatio m s = PFloat.neginf) ∧
    (s = PFloat.nan → contributionRatio m s = PFloat.nan) ∧
    (s = PFloat.fin 0 →
      ((m = PFloat.nan ∨ m = PFloat.fin 0) → contributionRatio m s = PFloat.nan) ∧
      (∀ q : ℚ, m = PFloat.fin q → 0 < q → contributionRatio m s = PFloat.inf) ∧
      (∀ q : ℚ, m = PFloat.fin q → q < 0 → contributionRatio m s = PFloat.neginf)) := by
  refine ⟨?_, ?_, ?_⟩
  · rcases h with h | h <;> subst h
    · left; cases m <;> rfl
    · cases m with
      | fin q =>
          rcases lt_trichotomy q 0 with hq | hq | hq
          · right; right
            simp [contributionRatio, pdiv, ne_of_lt hq, asymm hq]
          · subst hq; left; simp [contributionRatio, pdiv]
          · right; left
            simp [contributionRatio, pdiv, ne_of_gt hq, hq]
      | inf => right; left; simp [contributionRatio, pdiv]
      | neginf => right; right; simp [contributionRatio, pdiv]
      | nan => left; rfl
  · intro hnan; subst hnan; cases m <;> rfl
  · intro hzero; subst hzero
    refine ⟨?_, ?_, ?_⟩
    · rintro (hm | hm) <;> subst hm <;> simp [contributionRatio, pdiv]
    · rintro q rfl hq
      simp [contributionRatio, pdiv, ne_of_gt hq, hq]
    · rintro q rfl hq
      simp [contributionRatio, pdiv, ne_of_lt hq, asymm hq]

/-- Witness for `contributionRatio_zero_or_absent` at metric `2`, score NaN. -/
theorem contributionRatio_zero_or_absent_witness :
    (PFloat.nan = PFloat.nan ∨ PFloat.nan = PFloat.fin 0) ∧
    contributionRatio (PFloat.fin 2) PFloat.nan = PFloat.nan := by
  refine ⟨Or.inl rfl, ?_⟩
  exact (contributionRatio_zero_or_absent (PFloat.fin 2) PFloat.nan (Or.inl rfl)).2.1 rfl

/-- The concrete breakdown row used to refute C6 as stated. -/
def zeroScoreRow : BreakdownRow :=
  { country := "Atlantis", score := PFloat.fin 0, gdp := PFloat.fin 1,
    social := PFloat.fin 1, health := PFloat.fin 1, freedom := PFloat.fin 1,
    generosity := PFloat.fin 1, trust := PFloat.fin 1 }

/-- C6, counterexample.  A row with Happiness Score `0` and metric value `1`
gets contribution ratio `+inf`, not NaN, refuting the claim that a zero score
always yields a propagated NaN. -/
theorem contribution_zero_not_nan_cex :
    addContributions [zeroScoreRow] =
      [(zeroScoreRow, PFloat.inf, PFloat.inf, PFloat.inf, PFloat.inf,
        PFloat.inf, PFloat.inf)] ∧
    PFloat.inf ≠ PFloat.nan := by
  constructor
  · simp [addContributions, contributionRatio, pdiv, zeroScoreRow]
  · intro h; cases h

/-- C8.  Applying the dashboard category filters of two metrics in either
order yields the same filtered row list, and a row survives both filters
exactly when it is an original row matching every active dropdown. -/
theorem catFilters_commute_conjunctive (f g : FactorRow → Cat)
    (s t : Option Cat) (rows : List FactorRow) :
    applyCatFilter f s (applyCatFilter g t rows) =
      applyCatFilter g t (applyCatFilter f s rows) ∧
    ∀ r : FactorRow,
      r ∈ applyCatFilter f s (applyCatFilter g t rows) ↔
        r ∈ rows ∧ matchesSel s (f r) = true ∧ matchesSel t (g r) = true := by
  constructor
  · unfold applyCatFilter
    rw [List.filter_filter, List.filter_filter]
    apply List.filter_congr
    intro r _
    exact Bool.and_comm _ _
  · intro r
    unfold applyCatFilter
    rw [List.filter_filter]
    simp only [List.mem_filter, Bool.and_eq_true]

/-! ### The table model for the Normalizer (lines 52-92)

A table is a list of column names plus rows, each row an association list
from column names to cells; a column absent from a row is a missing (NaN)
entry.  This models the pandas operations the normaliser uses: column
selection (KeyError on missing columns), `sort_values` (KeyError on a
missing `by` column), `rename` (which silently ignores absent keys),
row-wise `concat` with outer column union, `dropna`, and year filtering. -/

/-- A table cell value. -/
inductive Val where
  | str (s : String)
  | num (q : ℚ)
  deriving DecidableEq, Repr

/-- A row: cells keyed by column name; missing columns model NaN. -/
abbrev Row := List (String × Val)

/-- Cell of row `r` in column `c`, when present. -/
def lookupCell (r : Row) (c : String) : Option Val :=
  r.lookup c

/-- A dataframe. -/
structure Table where
  columns : List String
  rows : List Row
  deriving DecidableEq, Repr

/-- A pandas KeyError carrying the offending column names. -/
inductive NormError where
  | keyError (missing : List String)
  deriving DecidableEq, Repr

/-- The columns the script selects from the raw 2024 table (lines 60-72). -/
def required2024 : List String :=
  ["Country name", "Ladder score", "Explained by: Log GDP per capita",
   "Explained by: Social support", "Explained by: Healthy life expectancy",
   "Explained by: Freedom to make life choices", "Explained by: Generosity",
   "Explained by: Perceptions of corruption", "Dystopia + residual"]

/-- `df[cs]` column selection; pandas raises a KeyError naming every column
not in the index. -/
def selectColumns (t : Table) (cs : List String) : Except NormError Table :=
  if (cs.filter fun c => decide (¬ c ∈ t.columns)).isEmpty then
    Except.ok { columns := cs,
                rows := t.rows.map fun r =>
                  cs.filterMap fun c => (lookupCell r c).map fun v => (c, v) }
  else Except.error (NormError.keyError (cs.filter fun c => decide (¬ c ∈ t.columns)))

/-- Sort key of a row for `sort_values(by=["Rank"])`. -/
def rankKey (r : Row) : ℚ :=
  match lookupCell r "Rank" with
  | some (Val.num q) => q
  | _ => 0

/-- Line 57: `df_years.sort_values(by=["Rank"])`; pandas raises a KeyError
when the Rank column is absent. -/
def sortValuesByRank (t : Table) : Except NormError Table :=
  if "Rank" ∈ t.columns then
    Except.ok { columns := t.columns,
                rows := List.insertionSort (fun r s => rankKey r ≤ rankKey s) t.rows }
  else Except.error (NormError.keyError ["Rank"])

/-- Line 88: the column mapping of
`df_years.rename(columns={"Index": "Happiness Score"})`. -/
def renameKeyYears (k : String) : String :=
  if k = "Index" then "Happiness Score" else k

/-- pandas `rename` applies the mapping where it matches and silently
ignores keys that are not present. -/
def renameYears (t : Table) : Table :=
  { columns := t.columns.map renameKeyYears,
    rows := t.rows.map fun r => r.map fun p => (renameKeyYears p.1, p.2) }

/-- Line 89: `pd.concat([df_years, df_2024_years])`, row-wise with outer
column union; rows keep only their own cells, so a row misses every column
its source table lacks. -/
def concatTables (a b : Table) : Table :=
  { columns := a.columns ++ b.columns.filter fun c => decide (¬ c ∈ a.columns),
    rows := a.rows ++ b.rows }

/-- Whether a row has an entry in every listed column. -/
def rowComplete (cs : List String) (r : Row) : Bool :=
  cs.all fun c => (lookupCell r c).isSome

/-- Line 90: `df_years.dropna()` removes every row missing an entry in any
column of the (combined) table. -/
def dropna (t : Table) : Table :=
  { columns := t.columns, rows := t.rows.filter (rowComplete t.columns) }

/-- Lines 91-92: `df_years = df_years[df_years["Year"] != y]`. -/
def filterYearNe (t : Table) (y : ℚ) : Table :=
  { columns := t.columns,
    rows := t.rows.filter fun r =>
      !(decide (lookupCell r "Year" = some (Val.num y))) }

/-- Lines 57 and 88-92: the normalized multi-year table, built from the raw
historical table and the already-tagged 2024 snapshot `df_2024_years`. -/
def buildYearsTable (histRaw snap : Table) : Except NormError Table :=
  match sortValuesByRank histRaw with
  | Except.error e => Except.error e
  | Except.ok sorted =>
      Except.ok (filterYearNe
        (filterYearNe (dropna (concatTables (renameYears sorted) snap)) 2014) 2013)

/-! ### Year-slider declarations of the Chart Binding Layer -/

/-- An `alt.binding_range(min=..., max=..., step=...)` slider. -/
structure BindingRange where
  min : ℚ
  max : ℚ
  step : ℚ
  deriving DecidableEq, Repr

/-- An `alt.selection_single(fields=["Year"], bind=slider, value=...)`. -/
structure YearSelection where
  binding : BindingRange
  value : ℚ
  deriving DecidableEq, Repr

/-- Lines 103-104: the year slider of the top-10 bar chart. -/
def select_year_top10 : YearSelection :=
  { binding := { min := 2015, max := 2024, step := 1 }, value := 2024 }

/-- Lines 807-809: the year slider of the relative-happiness globe. -/
def select_year_globe : YearSelection :=
  { binding := { min := 2015, max := 2024, step := 1 }, value := 2015 }

/-- The numeric Year entries present in a table. -/
def yearValues (t : Table) : List ℚ :=
  t.rows.filterMap fun r =>
    match lookupCell r "Year" with
    | some (Val.num q) => some q
    | _ => none

/-- The latest year present in a table (0 for an empty table). -/
def latestYear (t : Table) : ℚ :=
  (yearValues t).foldr max 0

/-- The latest year of the normalized table built from the two inputs. -/
def latestYearResult (hist snap : Table) : ℚ :=
  match buildYearsTable hist snap with
  | Except.ok t => latestYear t
  | Except.error _ => 0

/-! ### Concrete input tables used in witnesses and counterexamples -/

/-- A complete historical row (Atlantis, 2015). -/
def rowAtlantis2015 : Row :=
  [("Country", Val.str "Atlantis"), ("Rank", Val.num 1),
   ("Index", Val.num 7), ("Year", Val.num 2015)]

/-- The same row after the Index column is renamed. -/
def rowAtlantis2015R : Row :=
  [("Country", Val.str "Atlantis"), ("Rank", Val.num 1),
   ("Happiness Score", Val.num 7), ("Year", Val.num 2015)]

/-- The tagged 2024 snapshot row. -/
def rowAtlantis2024 : Row :=
  [("Country", Val.str "Atlantis"), ("Happiness Score", Val.num 7),
   ("Rank", Val.num 1), ("Year", Val.num 2024)]

/-- A small well-formed raw historical table. -/
def histSmall : Table :=
  { columns := ["Country", "Rank", "Index", "Year"], rows := [rowAtlantis2015] }

/-- A small tagged 2024 snapshot table (`df_2024_years`). -/
def snapSmall : Table :=
  { columns := ["Country", "Happiness Score", "Rank", "Year"],
    rows := [rowAtlantis2024] }

/-- The normalized table built from `histSmall` and `snapSmall`. -/
def outSmall : Table :=
  { columns := ["Country", "Rank", "Happiness Score", "Year"],
    rows := [rowAtlantis2015R, rowAtlantis2024] }

/-- A raw historical table whose score column (`Index`) is absent. -/
def histNoScore : Table :=
  { columns := ["Country", "Rank", "Year"],
    rows := [[("Country", Val.str "Atlantis"), ("Rank", Val.num 1),
              ("Year", Val.num 2015)]] }

end NarrativeViz

namespace NarrativeViz

/-- Rows surviving `filterYearNe` are original rows whose Year is not `y`. -/
theorem mem_filterYearNe {t : Table} {y : ℚ} {r : Row}
    (h : r ∈ (filterYearNe t y).rows) :
    r ∈ t.rows ∧ lookupCell r "Year" ≠ some (Val.num y) := by
  unfold filterYearNe at h
  simp only [List.mem_filter, Bool.not_eq_eq_eq_not, Bool.not_true,
    decide_eq_false_iff_not] at h
  exact h

/-- C7.  Whenever the normalizer pipeline of lines 57 and 88-92 succeeds, no
row of the resulting multi-year table has Year 2013 or Year 2014, whatever
the raw inputs contained. -/
theorem excluded_years_absent (hist snap out : Table)
    (hok : buildYearsTable hist snap = Except.ok out) :
    ∀ r ∈ out.rows,
      lookupCell r "Year" ≠ some (Val.num 2013) ∧
      lookupCell r "Year" ≠ some (Val.num 2014) := by
  intro r hr
  unfold buildYearsTable at hok
  cases hsort : sortValuesByRank hist with
  | error e => rw [hsort] at hok; cases hok
  | ok sorted =>
      rw [hsort] at hok
      have hout : out = filterYearNe
          (filterYearNe (dropna (concatTables (renameYears sorted) snap)) 2014)
          2013 := by
        cases hok; rfl
      subst hout
      have h13 := mem_filterYearNe hr
      have h14 := mem_filterYearNe h13.1
      exact ⟨h13.2, h14.2⟩

/-- Witness for `excluded_years_absent` on the small concrete input. -/
theorem excluded_years_absent_witness :
    buildYearsTable histSmall snapSmall = Except.ok outSmall ∧
    rowAtlantis2024 ∈ outSmall.rows ∧
    lookupCell rowAtlantis2024 "Year" ≠ some (Val.num 2013) ∧
    lookupCell rowAtlantis2024 "Year" ≠ some (Val.num 2014) := by
  have hok : buildYearsTable histSmall snapSmall = Except.ok outSmall := by rfl
  have hmem : rowAtlantis2024 ∈ outSmall.rows := by decide
  exact ⟨hok, hmem,
    excluded_years_absent histSmall snapSmall outSmall hok rowAtlantis2024 hmem⟩

/-- C3, amended.  A column of the 2024 selection list that is absent from the
raw 2024 table makes the selection fail with a KeyError naming it, and a
missing Rank column makes `sort_values` fail with a KeyError; but (see the
counterexample) a missing score column of the multi-year table is silently
tolerated by `rename`. -/
theorem missing_column_detection (t u : Table) (c : String)
    (h1 : c ∈ required2024) (h2 : ¬ c ∈ t.columns) (h3 : ¬ "Rank" ∈ u.columns) :
    (∃ missing, selectColumns t required2024 =
        Except.error (NormError.keyError missing) ∧ c ∈ missing) ∧
    sortValuesByRank u = Except.error (NormError.keyError ["Rank"]) := by
  constructor
  · have hcmem : c ∈ required2024.filter fun d => decide (¬ d ∈ t.columns) :=
      List.mem_filter.mpr ⟨h1, by simpa using h2⟩
    refine ⟨required2024.filter fun d => decide (¬ d ∈ t.columns), ?_, hcmem⟩
    unfold selectColumns
    have hne : (required2024.filter fun d => decide (¬ d ∈ t.columns)).isEmpty
        = false :=
      List.isEmpty_eq_false.mpr (List.ne_nil_of_mem hcmem)
    rw [hne]
    rfl
  · unfold sortValuesByRank
    rw [if_neg h3]

/-- Witness for `missing_column_detection`: a 2024 table lacking the Ladder
score column and a multi-year table lacking the Rank column. -/
theorem missing_column_detection_witness :
    ("Ladder score" ∈ required2024 ∧
      ¬ "Ladder score" ∈ (Table.mk ["Country name"] []).columns ∧
      ¬ "Rank" ∈ (Table.mk ["Country"] []).columns) ∧
    ((∃ missing, selectColumns (Table.mk ["Country name"] []) required2024 =
        Except.error (NormError.keyError missing) ∧ "Ladder score" ∈ missing) ∧
      sortValuesByRank (Table.mk ["Country"] []) =
        Except.error (NormError.keyError ["Rank"])) := by
  refine ⟨⟨by decide, by decide, by decide⟩, ?_⟩
  exact missing_column_detection (Table.mk ["Country name"] [])
    (Table.mk ["Country"] []) "Ladder score" (by decide) (by decide) (by decide)

/-- C3, counterexample.  The multi-year table `histNoScore` lacks its
required score column (`Index`), yet the normalizer pipeline raises no error:
`rename` silently ignores the missing key and `dropna` silently deletes every
historical row, leaving only the 2024 snapshot row.  This refutes the claim
that every missing required column fails fast with a descriptive error. -/
theorem missing_column_silent_cex :
    buildYearsTable histNoScore snapSmall =
      Except.ok { columns := ["Country", "Rank", "Year", "Happiness Score"],
                  rows := [rowAtlantis2024] } := by
  rfl

/-- C10.  After `concat` (line 89), a column present in table `a` but absent
from table `b` is missing in every row coming from `b`, so `dropna`
(line 90) silently removes all of `b`'s rows — the surviving rows are
exactly the complete rows of `a` — even though the rows of `b` may be
complete with respect to `b`'s own columns.  No error is raised anywhere
(all the functions involved are total). -/
theorem concat_dropna_silently_drops (a b : Table) (c : String)
    (hca : c ∈ a.columns) (hcb : ¬ c ∈ b.columns)
    (hwf : ∀ r ∈ b.rows, ∀ p ∈ r, p.1 ∈ b.columns) :
    (dropna (concatTables a b)).rows
        = a.rows.filter (rowComplete (concatTables a b).columns) ∧
    ∀ r ∈ b.rows, rowComplete (concatTables a b).columns r = false := by
  have hcmem : c ∈ (concatTables a b).columns := by
    unfold concatTables
    exact List.mem_append_left _ hca
  have hdrop : ∀ r ∈ b.rows, rowComplete (concatTables a b).columns r = false := by
    intro r hr
    have hnone : lookupCell r c = none := by
      unfold lookupCell
      rw [List.lookup_eq_none_iff]
      intro p hp
      rw [bne_iff_ne]
      intro hcp
      exact hcb (hcp ▸ hwf r hr p hp)
    rw [Bool.eq_false_iff]
    intro hall
    unfold rowComplete at hall
    rw [List.all_eq_true] at hall
    have hsome := hall c hcmem
    rw [hnone] at hsome
    cases hsome
  refine ⟨?_, hdrop⟩
  show ((concatTables a b).rows.filter (rowComplete (concatTables a b).columns))
      = a.rows.filter (rowComplete (concatTables a b).columns)
  have hrows : (concatTables a b).rows = a.rows ++ b.rows := rfl
  rw [hrows, List.filter_append]
  have hnil : b.rows.filter (rowComplete (concatTables a b).columns) = [] := by
    rw [List.filter_eq_nil_iff]
    intro r hr
    rw [hdrop r hr]
    intro hfalse
    cases hfalse
  rw [hnil, List.append_nil]

/-- A small table with a Region column. -/
def tblWithRegion : Table :=
  { columns := ["Country", "Region"],
    rows := [[("Country", Val.str "Atlantis"), ("Region", Val.str "West")]] }

/-- A small table without the Region column, with a complete row. -/
def tblNoRegion : Table :=
  { columns := ["Country"], rows := [[("Country", Val.str "Borduria")]] }

/-- Witness for `concat_dropna_silently_drops` on two small tables. -/
theorem concat_dropna_silently_drops_witness :
    ("Region" ∈ tblWithRegion.columns ∧ ¬ "Region" ∈ tblNoRegion.columns ∧
      (∀ r ∈ tblNoRegion.rows, ∀ p ∈ r, p.1 ∈ tblNoRegion.columns)) ∧
    ((dropna (concatTables tblWithRegion tblNoRegion)).rows
        = tblWithRegion.rows.filter
            (rowComplete (concatTables tblWithRegion tblNoRegion).columns) ∧
      ∀ r ∈ tblNoRegion.rows,
        rowComplete (concatTables tblWithRegion tblNoRegion).columns r = false) := by
  refine ⟨⟨by decide, by decide, by decide⟩, ?_⟩
  exact concat_dropna_silently_drops tblWithRegion tblNoRegion "Region"
    (by decide) (by decide) (by decide)

/-- A cell found by lookup is a cell of the row. -/
theorem mem_of_lookupCell {r : Row} {c : String} {v : Val}
    (h : lookupCell r c = some v) : (c, v) ∈ r := by
  unfold lookupCell at h
  rcases List.lookup_eq_some_iff.mp h with ⟨l1, l2, heq, hl1⟩
  subst heq
  exact List.mem_append_right _ (List.mem_cons_self _ _)

/-- The rename of line 88 maps no column onto Year, so a Year lookup is
unchanged by it. -/
theorem lookupCell_renameRow_year (r : Row) :
    lookupCell (r.map fun p => (renameKeyYears p.1, p.2)) "Year" =
      lookupCell r "Year" := by
  induction r with
  | nil => rfl
  | cons p tl ih =>
      obtain ⟨k, v⟩ := p
      unfold lookupCell at ih
      unfold lookupCell
      rw [List.map_cons, List.lookup_cons, List.lookup_cons]
      by_cases hk : k = "Year"
      · subst hk
        rfl
      · have h2 : renameKeyYears k ≠ "Year" := by
          unfold renameKeyYears
          by_cases hI : k = "Index"
          · rw [if_pos hI]
            decide
          · rw [if_neg hI]
            exact hk
        have hb1 : ("Year" == renameKeyYears k) = false := by
          rw [beq_eq_false_iff_ne]
          exact fun h => h2 h.symm
        have hb2 : ("Year" == k) = false := by
          rw [beq_eq_false_iff_ne]
          exact fun h => hk h.symm
        rw [hb1, hb2]
        exact ih

/-- Each row of the normalized multi-year table is a renamed historical row
or a snapshot row, and carries neither of the excluded years. -/
theorem buildYears_row_source (hist snap out : Table)
    (hok : buildYearsTable hist snap = Except.ok out) :
    ∀ r ∈ out.rows,
      ((∃ r0 ∈ hist.rows, r = r0.map fun p => (renameKeyYears p.1, p.2)) ∨
        r ∈ snap.rows) ∧
      lookupCell r "Year" ≠ some (Val.num 2013) ∧
      lookupCell r "Year" ≠ some (Val.num 2014) := by
  intro r hr
  unfold buildYearsTable at hok
  cases hsort : sortValuesByRank hist with
  | error e => rw [hsort] at hok; cases hok
  | ok sorted =>
      rw [hsort] at hok
      have hout : out = filterYearNe
          (filterYearNe (dropna (concatTables (renameYears sorted) snap)) 2014)
          2013 := by
        cases hok; rfl
      subst hout
      have h13 := mem_filterYearNe hr
      have h14 := mem_filterYearNe h13.1
      refine ⟨?_, h13.2, h14.2⟩
      have hconc : r ∈ (concatTables (renameYears sorted) snap).rows := by
        have hmem := h14.1
        unfold dropna at hmem
        exact (List.mem_filter.mp hmem).1
      have hsortedRows : sorted.rows =
          List.insertionSort (fun a b => rankKey a ≤ rankKey b) hist.rows := by
        unfold sortValuesByRank at hsort
        by_cases hc : "Rank" ∈ hist.columns
        · rw [if_pos hc] at hsort
          cases hsort
          rfl
        · rw [if_neg hc] at hsort
          cases hsort
      unfold concatTables at hconc
      rcases List.mem_append.mp hconc with hl | hsnapmem
      · left
        unfold renameYears at hl
        rcases List.mem_map.mp hl with ⟨r0, hr0, heq⟩
        rw [hsortedRows, List.mem_insertionSort] at hr0
        exact ⟨r0, hr0, heq.symm⟩
      · right
        exact hsnapmem

/-- The calendar years covered by the raw historical file (2013-2023). -/
def rawYearDomain : List ℚ :=
  [2013, 2014, 2015, 2016, 2017, 2018, 2019, 2020, 2021, 2022, 2023]

/-- C9, amended.  When every Year cell of the raw multi-year table is one of
the raw file's calendar years 2013-2023 and every Year cell of the tagged
snapshot is 2024, every year of the normalized table lies within the bounds
(2015-2024) of both declared year sliders; the top-10 slider's default is its
maximum 2024 (the latest data year) but the globe slider's default is its
minimum 2015, not the latest year. -/
theorem slider_bounds_and_defaults (hist snap out : Table)
    (hok : buildYearsTable hist snap = Except.ok out)
    (hhist : ∀ r ∈ hist.rows, ∀ p ∈ r, p.1 = "Year" →
      ∃ q, p.2 = Val.num q ∧ q ∈ rawYearDomain)
    (hsnap : ∀ r ∈ snap.rows, ∀ p ∈ r, p.1 = "Year" → p.2 = Val.num 2024) :
    (∀ y ∈ yearValues out,
      select_year_top10.binding.min ≤ y ∧ y ≤ select_year_top10.binding.max ∧
      select_year_globe.binding.min ≤ y ∧ y ≤ select_year_globe.binding.max) ∧
    select_year_top10.value = select_year_top10.binding.max ∧
    select_year_globe.value = select_year_globe.binding.min := by
  refine ⟨?_, rfl, rfl⟩
  intro y hy
  unfold yearValues at hy
  rcases List.mem_filterMap.mp hy with ⟨r, hr, hmatch⟩
  have hlook : lookupCell r "Year" = some (Val.num y) := by
    cases hcell : lookupCell r "Year" with
    | none => rw [hcell] at hmatch; cases hmatch
    | some v =>
        cases v with
        | str s => rw [hcell] at hmatch; cases hmatch
        | num q =>
            rw [hcell] at hmatch
            cases hmatch
            rfl
  rcases buildYears_row_source hist snap out hok r hr with ⟨hEnum, h13, h14⟩
  have hy13 : y ≠ 2013 := by
    intro h
    rw [h] at hlook
    exact h13 hlook
  have hy14 : y ≠ 2014 := by
    intro h
    rw [h] at hlook
    exact h14 hlook
  rcases hEnum with ⟨r0, hr0, rfl⟩ | hsnapmem
  · rw [lookupCell_renameRow_year r0] at hlook
    have hpair : ("Year", Val.num y) ∈ r0 := mem_of_lookupCell hlook
    rcases hhist r0 hr0 ("Year", Val.num y) hpair rfl with ⟨q, hq1, hq2⟩
    have hyq : y = q := by
      cases hq1
      rfl
    subst hyq
    simp only [rawYearDomain, List.mem_cons, List.not_mem_nil, or_false] at hq2
    rcases hq2 with rfl | rfl | rfl | rfl | rfl | rfl | rfl | rfl | rfl | rfl | rfl <;>
      first
        | exact absurd rfl hy13
        | exact absurd rfl hy14
        | exact ⟨by norm_num [select_year_top10], by norm_num [select_year_top10],
            by norm_num [select_year_globe], by norm_num [select_year_globe]⟩
  · have hpair : ("Year", Val.num y) ∈ r := mem_of_lookupCell hlook
    have h2024 := hsnap r hsnapmem ("Year", Val.num y) hpair rfl
    have hyq : y = 2024 := by
      cases h2024
      rfl
    subst hyq
    exact ⟨by norm_num [select_year_top10], by norm_num [select_year_top10],
      by norm_num [select_year_globe], by norm_num [select_year_globe]⟩

/-- Witness for `slider_bounds_and_defaults` on the small concrete input. -/
theorem slider_bounds_and_defaults_witness :
    buildYearsTable histSmall snapSmall = Except.ok outSmall ∧
    ((∀ y ∈ yearValues outSmall,
        select_year_top10.binding.min ≤ y ∧ y ≤ select_year_top10.binding.max ∧
        select_year_globe.binding.min ≤ y ∧ y ≤ select_year_globe.binding.max) ∧
      select_year_top10.value = select_year_top10.binding.max ∧
      select_year_globe.value = select_year_globe.binding.min) := by
  have hh : ∀ r ∈ histSmall.rows, ∀ p ∈ r, p.1 = "Year" →
      ∃ q, p.2 = Val.num q ∧ q ∈ rawYearDomain := by
    intro r hr p hp hpy
    simp only [histSmall, List.mem_singleton] at hr
    subst hr
    simp only [rowAtlantis2015, List.mem_cons, List.not_mem_nil, or_false] at hp
    rcases hp with rfl | rfl | rfl | rfl
    · exact absurd hpy (by decide)
    · exact absurd hpy (by decide)
    · exact absurd hpy (by decide)
    · exact ⟨2015, rfl, by decide⟩
  have hs : ∀ r ∈ snapSmall.rows, ∀ p ∈ r, p.1 = "Year" → p.2 = Val.num 2024 := by
    intro r hr p hp hpy
    simp only [snapSmall, List.mem_singleton] at hr
    subst hr
    simp only [rowAtlantis2024, List.mem_cons, List.not_mem_nil, or_false] at hp
    rcases hp with rfl | rfl | rfl | rfl
    · exact absurd hpy (by decide)
    · exact absurd hpy (by decide)
    · exact absurd hpy (by decide)
    · rfl
  exact ⟨rfl, slider_bounds_and_defaults histSmall snapSmall outSmall rfl hh hs⟩

/-- C9, counterexample.  On inputs whose normalized table has years 2015 and
2024 (latest year 2024), the globe year slider declared at lines 807-809
still has default value 2015: its default is not the latest year present in
the data, refuting the claim for that slider. -/
theorem globe_slider_default_cex :
    latestYearResult histSmall snapSmall = 2024 ∧
    select_year_globe.value = 2015 ∧
    ¬ ((2015 : ℚ) = 2024) := by
  refine ⟨?_, by decide, by decide⟩
  show latestYearResult histSmall snapSmall = 2024
  decide

/-! ### Per-country and per-year mean deviations (lines 778-786)

`df_years.groupby(k)["Happiness Score"].transform("mean")` computes one mean
per distinct key and broadcasts it back to each row of the group; the script
then subtracts it from the row's score.  The embedding tabulates the
per-group means once (over the distinct keys) and lets each row look its
group up, mirroring the groupby/transform split. -/

/-- One record of the normalized multi-year table. -/
structure YearRecord where
  country : String
  year : ℚ
  score : ℚ
  deriving DecidableEq, Repr

/-- Arithmetic mean of a list of scores. -/
def meanList (l : List ℚ) : ℚ :=
  l.sum / (l.length : ℚ)

/-- The per-group mean table of `groupby(key)["Happiness Score"].mean()`. -/
def groupMeans {α : Type} [DecidableEq α] (rows : List YearRecord)
    (key : YearRecord → α) : List (α × ℚ) :=
  ((rows.map key).dedup).map fun k =>
    (k, meanList ((rows.filter fun r => decide (key r = k)).map YearRecord.score))

/-- `transform("mean")`: each row receives its own group's mean. -/
def transformMean {α : Type} [DecidableEq α] (rows : List YearRecord)
    (key : YearRecord → α) (r : YearRecord) : ℚ :=
  ((groupMeans rows key).lookup (key r)).getD 0

/-- Lines 778-786: each row with its Difference_Country and Difference_Year
columns. -/
def addDifferences (rows : List YearRecord) : List (YearRecord × ℚ × ℚ) :=
  rows.map fun r =>
    (r, r.score - transformMean rows (fun x => x.country) r,
      r.score - transformMean rows (fun x => x.year) r)

/-- Looking up a key in its tabulated graph returns the key's image. -/
theorem lookup_graph {α β : Type} [DecidableEq α] (l : List α) (f : α → β)
    (k : α) (hk : k ∈ l) :
    (l.map fun a => (a, f a)).lookup k = some (f k) := by
  induction l with
  | nil => cases hk
  | cons a tl ih =>
      rw [List.map_cons, List.lookup_cons]
      by_cases hak : k = a
      · subst hak
        simp
      · have hb : (k == a) = false := beq_eq_false_iff_ne.mpr hak
        rw [hb]
        refine ih ?_
        rcases List.mem_cons.mp hk with h | h
        · exact absurd h hak
        · exact h

/-- The broadcast group mean of a row is the mean over exactly the rows
sharing its key. -/
theorem transformMean_eq {α : Type} [DecidableEq α] (rows : List YearRecord)
    (key : YearRecord → α) (r : YearRecord) (hr : r ∈ rows) :
    transformMean rows key r =
      meanList ((rows.filter fun x => decide (key x = key r)).map
        YearRecord.score) := by
  unfold transformMean groupMeans
  have hkmem : key r ∈ (rows.map key).dedup :=
    List.mem_dedup.mpr (List.mem_map_of_mem key hr)
  rw [lookup_graph ((rows.map key).dedup)
    (fun k => meanList ((rows.filter fun x => decide (key x = k)).map
      YearRecord.score)) (key r) hkmem]
  rfl

/-- C4.  In the output of lines 778-786, every row's Difference_Country is
its score minus the arithmetic mean over exactly the rows of its own country
(however many years that country is observed in), and its Difference_Year is
its score minus the mean over the rows of its own calendar year. -/
theorem difference_country_year (rows : List YearRecord)
    (p : YearRecord × ℚ × ℚ) (hp : p ∈ addDifferences rows) :
    p.2.1 = p.1.score -
      ((rows.filter fun x => decide (x.country = p.1.country)).map
        YearRecord.score).sum /
      (((rows.filter fun x => decide (x.country = p.1.country)).length : ℚ)) ∧
    p.2.2 = p.1.score -
      ((rows.filter fun x => decide (x.year = p.1.year)).map
        YearRecord.score).sum /
      (((rows.filter fun x => decide (x.year = p.1.year)).length : ℚ)) := by
  unfold addDifferences at hp
  rcases List.mem_map.mp hp with ⟨r, hr, rfl⟩
  constructor
  · show r.score - transformMean rows (fun x => x.country) r = _
    rw [transformMean_eq rows (fun x => x.country) r hr]
    unfold meanList
    rw [List.length_map]
  · show r.score - transformMean rows (fun x => x.year) r = _
    rw [transformMean_eq rows (fun x => x.year) r hr]
    unfold meanList
    rw [List.length_map]

/-- Country A observed in 2015 and 2016 only (scores 4 and 6, mean 5). -/
def recA2015 : YearRecord := { country := "A", year := 2015, score := 4 }

/-- Country A in 2016. -/
def recA2016 : YearRecord := { country := "A", year := 2016, score := 6 }

/-- A two-row multi-year table. -/
def rowsAB : List YearRecord := [recA2015, recA2016]

/-- Witness for `difference_country_year`: country A's mean is taken over
its two observed years only, giving Difference_Country `4 - 5 = -1`. -/
theorem difference_country_year_witness :
    (recA2015, (-1 : ℚ), (0 : ℚ)) ∈ addDifferences rowsAB ∧
    ((-1 : ℚ) = recA2015.score -
      ((rowsAB.filter fun x => decide (x.country = recA2015.country)).map
        YearRecord.score).sum /
      (((rowsAB.filter fun x =>
        decide (x.country = recA2015.country)).length : ℚ))) := by
  have heval : addDifferences rowsAB = [(recA2015, -1, 0), (recA2016, 1, 0)] := by
    norm_num [addDifferences, transformMean, groupMeans, meanList, rowsAB,
      recA2015, recA2016, List.dedup_cons_of_mem, List.dedup_cons_of_not_mem,
      List.lookup_cons, beq_eq_decide, Option.getD]
  have hp : (recA2015, (-1 : ℚ), (0 : ℚ)) ∈ addDifferences rowsAB := by
    rw [heval]
    exact List.mem_cons_self _ _
  exact ⟨hp, (difference_country_year rowsAB (recA2015, -1, 0) hp).1⟩

/-! ### Tertile categorisation (lines 385-406)

`pd.qcut(col, q=3, labels=["Low", "Average", "High"])` computes bin edges as
the linear-interpolation quantiles (numpy's default method) of the data at
0, 1/3, 2/3 and 1, raises `ValueError: Bin edges must be unique` when the
four edges are not pairwise distinct, and otherwise assigns each value to one
of three right-closed bins, a value equal to an edge falling into the lower
bin.  The script applies qcut to seven columns in turn with no exception
handling, so a failing column aborts the whole derivation. -/

/-- The column sorted ascending. -/
def sortedAsc (xs : List ℚ) : List ℚ :=
  List.insertionSort (fun a b => a ≤ b) xs

/-- Linear interpolation at (fractional) sorted position `h`. -/
def interp (s : List ℚ) (h : ℚ) : ℚ :=
  s.getD ⌊h⌋₊ 0 +
    (h - (⌊h⌋₊ : ℚ)) * (s.getD (⌊h⌋₊ + 1) (s.getD ⌊h⌋₊ 0) - s.getD ⌊h⌋₊ 0)

/-- numpy's default quantile of a sorted list: linear interpolation at
position `q * (n - 1)`. -/
def quantileSorted (s : List ℚ) (q : ℚ) : ℚ :=
  interp s (q * ((s.length - 1 : ℕ) : ℚ))

/-- The lower tertile edge of a column. -/
def tertileEdge1 (xs : List ℚ) : ℚ :=
  quantileSorted (sortedAsc xs) (1/3)

/-- The upper tertile edge of a column. -/
def tertileEdge2 (xs : List ℚ) : ℚ :=
  quantileSorted (sortedAsc xs) (2/3)

/-- Assignment of a value to a right-closed tertile bin. -/
def assignCat (e1 e2 v : ℚ) : Cat :=
  if v ≤ e1 then Cat.low else if v ≤ e2 then Cat.average else Cat.high

/-- `pd.qcut(xs, q=3, labels=["Low", "Average", "High"])`. -/
def qcut3 (xs : List ℚ) : Except String (List Cat) :=
  if ([quantileSorted (sortedAsc xs) 0, tertileEdge1 xs, tertileEdge2 xs,
       quantileSorted (sortedAsc xs) 1] : List ℚ).Nodup then
    Except.ok (xs.map (assignCat (tertileEdge1 xs) (tertileEdge2 xs)))
  else Except.error "Bin edges must be unique"

/-- Lines 386-406: the script derives the category column of each metric in
sequence; an exception from any `pd.qcut` call propagates and aborts the
whole derivation, so later metrics are not categorised either. -/
def deriveFactorCategories : List (List ℚ) → Except String (List (List Cat))
  | [] => Except.ok []
  | c :: rest =>
      match qcut3 c with
      | Except.error e => Except.error e
      | Except.ok cats =>
          match deriveFactorCategories rest with
          | Except.error e => Except.error e
          | Except.ok others => Except.ok (cats :: others)

end NarrativeViz

namespace NarrativeViz

/-- `getD` inside the list is `getElem`. -/
theorem getD_eq_getElem_rat (s : List ℚ) (k : ℕ) (d : ℚ) (h : k < s.length) :
    s.getD k d = s[k] := by
  rw [List.getD_eq_getElem?_getD, List.getElem?_eq_getElem h, Option.getD_some]

/-- `getD` past the end is the default. -/
theorem getD_eq_default_rat (s : List ℚ) (k : ℕ) (d : ℚ) (h : s.length ≤ k) :
    s.getD k d = d := by
  rw [List.getD_eq_getElem?_getD, List.getElem?_eq_none h, Option.getD_none]

/-- Strictly sorted lists are strictly increasing by index. -/
theorem sorted_getElem_lt (s : List ℚ)
    (hs : List.Pairwise (fun a b => a < b) s) (i j : ℕ)
    (hi : i < s.length) (hj : j < s.length) (hij : i < j) : s[i] < s[j] := by
  have h := List.pairwise_iff_get.mp hs ⟨i, hi⟩ ⟨j, hj⟩ (Fin.mk_lt_mk.mpr hij)
  simpa using h

/-- Strictly sorted lists are monotone by index. -/
theorem sorted_getElem_le (s : List ℚ)
    (hs : List.Pairwise (fun a b => a < b) s) (i j : ℕ)
    (hi : i < s.length) (hj : j < s.length) (hij : i ≤ j) : s[i] ≤ s[j] := by
  rcases Nat.eq_or_lt_of_le hij with rfl | h
  · exact le_rfl
  · exact le_of_lt (sorted_getElem_lt s hs i j hi hj h)

/-- In a strictly sorted list, if `e` separates index `k` from index `k+1`
then exactly the first `k+1` values are at most `e`. -/
theorem countP_le_edge (s : List ℚ)
    (hs : List.Pairwise (fun a b => a < b) s) (k : ℕ) (e : ℚ)
    (hk : k < s.length) (hke : s[k] ≤ e)
    (hke2 : ∀ h2 : k + 1 < s.length, e < s[k + 1]) :
    s.countP (fun v => decide (v ≤ e)) = k + 1 := by
  have hsplit : s.countP (fun v => decide (v ≤ e)) =
      (s.take (k+1)).countP (fun v => decide (v ≤ e)) +
      (s.drop (k+1)).countP (fun v => decide (v ≤ e)) := by
    conv_lhs => rw [← List.take_append_drop (k+1) s]
    rw [List.countP_append]
  have htake : (s.take (k+1)).countP (fun v => decide (v ≤ e)) = k + 1 := by
    have hlen : (s.take (k+1)).length = k + 1 := by
      rw [List.length_take]
      omega
    have hall : ∀ v ∈ s.take (k+1), v ≤ e := by
      intro v hv
      rcases List.mem_iff_getElem.mp hv with ⟨i, hilen, hvi⟩
      have hik : i ≤ k := by
        rw [hlen] at hilen
        omega
      have hin : i < s.length := by omega
      have hgi : (s.take (k+1))[i] = s[i] := List.getElem_take s
      rw [← hvi, hgi]
      exact le_trans (sorted_getElem_le s hs i k hin hk hik) hke
    have hcp : (s.take (k+1)).countP (fun v => decide (v ≤ e)) =
        (s.take (k+1)).length :=
      List.countP_eq_length.mpr (fun a ha => by simpa using hall a ha)
    exact hcp.trans hlen
  have hdrop : (s.drop (k+1)).countP (fun v => decide (v ≤ e)) = 0 := by
    rw [List.countP_eq_zero]
    intro v hv
    rcases List.mem_iff_getElem.mp hv with ⟨i, hilen, hvi⟩
    have hkl : k + 1 < s.length := by
      rw [List.length_drop] at hilen
      omega
    have hin : k + 1 + i < s.length := by
      rw [List.length_drop] at hilen
      omega
    have hgi : (s.drop (k+1))[i] = s[k + 1 + i] := List.getElem_drop s
    rw [← hvi, hgi, decide_eq_true_iff]
    intro hle
    have hlt : e < s[k + 1] := hke2 hkl
    have hmono : s[k + 1] ≤ s[k + 1 + i] :=
      sorted_getElem_le s hs (k+1) (k+1+i) hkl hin (by omega)
    linarith
  rw [hsplit, htake, hdrop]

/-- In a strictly sorted nonempty list, exactly `⌊h⌋ + 1` values are at most
the value interpolated at any in-range position `h`. -/
theorem countP_le_interp (s : List ℚ)
    (hs : List.Pairwise (fun a b => a < b) s) (hn : 1 ≤ s.length)
    (h : ℚ) (hh0 : 0 ≤ h) (hhm : h ≤ ((s.length - 1 : ℕ) : ℚ)) :
    s.countP (fun v => decide (v ≤ interp s h)) = ⌊h⌋₊ + 1 := by
  have hlom : ⌊h⌋₊ ≤ s.length - 1 := by
    calc ⌊h⌋₊ ≤ ⌊((s.length - 1 : ℕ) : ℚ)⌋₊ := Nat.floor_le_floor hhm
      _ = s.length - 1 := Nat.floor_natCast _
  have hlon : ⌊h⌋₊ < s.length := by omega
  have hfl : (⌊h⌋₊ : ℚ) ≤ h := Nat.floor_le hh0
  have hfl2 : h < (⌊h⌋₊ : ℚ) + 1 := Nat.lt_floor_add_one h
  have ha : s.getD ⌊h⌋₊ 0 = s[⌊h⌋₊] := getD_eq_getElem_rat s _ 0 hlon
  by_cases hfrac : h = (⌊h⌋₊ : ℚ)
  · have he : interp s h = s[⌊h⌋₊] := by
      unfold interp
      rw [ha, sub_eq_zero_of_eq hfrac]
      ring
    rw [he]
    refine countP_le_edge s hs ⌊h⌋₊ _ hlon le_rfl ?_
    intro h2
    exact sorted_getElem_lt s hs _ _ hlon h2 (Nat.lt_succ_self _)
  · have hfrac0 : (⌊h⌋₊ : ℚ) < h := lt_of_le_of_ne hfl (fun hx => hfrac hx.symm)
    have hlom2 : ⌊h⌋₊ < s.length - 1 := by
      rcases Nat.lt_or_ge ⌊h⌋₊ (s.length - 1) with hlt | hge
      · exact hlt
      · exfalso
        have hfe : ⌊h⌋₊ = s.length - 1 := by omega
        rw [hfe] at hfrac0
        linarith
    have hlo1n : ⌊h⌋₊ + 1 < s.length := by omega
    have hb : s.getD (⌊h⌋₊ + 1) (s.getD ⌊h⌋₊ 0) = s[⌊h⌋₊ + 1] :=
      getD_eq_getElem_rat s _ _ hlo1n
    have hab : s[⌊h⌋₊] < s[⌊h⌋₊ + 1] :=
      sorted_getElem_lt s hs _ _ hlon hlo1n (Nat.lt_succ_self _)
    have hint : interp s h = s[⌊h⌋₊] +
        (h - (⌊h⌋₊ : ℚ)) * (s[⌊h⌋₊ + 1] - s[⌊h⌋₊]) := by
      unfold interp
      rw [hb, ha]
    have hprod : 0 ≤ (h - (⌊h⌋₊ : ℚ)) * (s[⌊h⌋₊ + 1] - s[⌊h⌋₊]) :=
      mul_nonneg (by linarith) (by linarith)
    have hlow : s[⌊h⌋₊] ≤ interp s h := by
      rw [hint]
      linarith
    have hup : interp s h < s[⌊h⌋₊ + 1] := by
      rw [hint]
      nlinarith
    refine countP_le_edge s hs ⌊h⌋₊ _ hlon hlow ?_
    intro h2
    exact hup

/-- Linear interpolation on a strictly sorted list is strictly monotone in
the position over the in-range positions. -/
theorem interp_strictMono (s : List ℚ)
    (hs : List.Pairwise (fun a b => a < b) s)
    (h1 h2 : ℚ) (h10 : 0 ≤ h1) (h12 : h1 < h2)
    (h2m : h2 ≤ ((s.length - 1 : ℕ) : ℚ)) :
    interp s h1 < interp s h2 := by
  have hl2m : ⌊h2⌋₊ ≤ s.length - 1 := by
    calc ⌊h2⌋₊ ≤ ⌊((s.length - 1 : ℕ) : ℚ)⌋₊ := Nat.floor_le_floor h2m
      _ = s.length - 1 := Nat.floor_natCast _
  have h1m : h1 < ((s.length - 1 : ℕ) : ℚ) := lt_of_lt_of_le h12 h2m
  have hf1 : (⌊h1⌋₊ : ℚ) ≤ h1 := Nat.floor_le h10
  have hf1b : h1 < (⌊h1⌋₊ : ℚ) + 1 := Nat.lt_floor_add_one h1
  have hf2 : (⌊h2⌋₊ : ℚ) ≤ h2 := Nat.floor_le (le_trans h10 (le_of_lt h12))
  have hl1m : ⌊h1⌋₊ < s.length - 1 := by
    have hcast : (⌊h1⌋₊ : ℚ) < ((s.length - 1 : ℕ) : ℚ) := lt_of_le_of_lt hf1 h1m
    exact_mod_cast hcast
  have hl1n : ⌊h1⌋₊ < s.length := by omega
  have hl11n : ⌊h1⌋₊ + 1 < s.length := by omega
  have hl2n : ⌊h2⌋₊ < s.length := by omega
  have hl12 : ⌊h1⌋₊ ≤ ⌊h2⌋₊ := Nat.floor_le_floor (le_of_lt h12)
  have ha1 : s.getD ⌊h1⌋₊ 0 = s[⌊h1⌋₊] := getD_eq_getElem_rat s _ 0 hl1n
  have hb1 : s.getD (⌊h1⌋₊ + 1) (s.getD ⌊h1⌋₊ 0) = s[⌊h1⌋₊ + 1] :=
    getD_eq_getElem_rat s _ _ hl11n
  have hab1 : s[⌊h1⌋₊] < s[⌊h1⌋₊ + 1] :=
    sorted_getElem_lt s hs _ _ hl1n hl11n (Nat.lt_succ_self _)
  have hint1 : interp s h1 = s[⌊h1⌋₊] +
      (h1 - (⌊h1⌋₊ : ℚ)) * (s[⌊h1⌋₊ + 1] - s[⌊h1⌋₊]) := by
    unfold interp
    rw [hb1, ha1]
  by_cases hll : ⌊h2⌋₊ ≤ ⌊h1⌋₊
  · have hee : ⌊h2⌋₊ = ⌊h1⌋₊ := Nat.le_antisymm hll hl12
    have hint2 : interp s h2 = s[⌊h1⌋₊] +
        (h2 - (⌊h1⌋₊ : ℚ)) * (s[⌊h1⌋₊ + 1] - s[⌊h1⌋₊]) := by
      unfold interp
      rw [hee, hb1, ha1]
    rw [hint1, hint2]
    have hba : (0:ℚ) < s[⌊h1⌋₊ + 1] - s[⌊h1⌋₊] := sub_pos.mpr hab1
    have hmul := mul_lt_mul_of_pos_right
      (show h1 - (⌊h1⌋₊ : ℚ) < h2 - (⌊h1⌋₊ : ℚ) by linarith) hba
    linarith
  · push_neg at hll
    have ha2 : s.getD ⌊h2⌋₊ 0 = s[⌊h2⌋₊] := getD_eq_getElem_rat s _ 0 hl2n
    have hlow2 : s[⌊h2⌋₊] ≤ interp s h2 := by
      by_cases hl2top : ⌊h2⌋₊ + 1 < s.length
      · have hb2 : s.getD (⌊h2⌋₊ + 1) (s.getD ⌊h2⌋₊ 0) = s[⌊h2⌋₊ + 1] :=
          getD_eq_getElem_rat s _ _ hl2top
        have hab2 : s[⌊h2⌋₊] < s[⌊h2⌋₊ + 1] :=
          sorted_getElem_lt s hs _ _ hl2n hl2top (Nat.lt_succ_self _)
        have hint2 : interp s h2 = s[⌊h2⌋₊] +
            (h2 - (⌊h2⌋₊ : ℚ)) * (s[⌊h2⌋₊ + 1] - s[⌊h2⌋₊]) := by
          unfold interp
          rw [hb2, ha2]
        rw [hint2]
        have hprod : 0 ≤ (h2 - (⌊h2⌋₊ : ℚ)) * (s[⌊h2⌋₊ + 1] - s[⌊h2⌋₊]) :=
          mul_nonneg (by linarith) (by linarith)
        linarith
      · have hb2 : s.getD (⌊h2⌋₊ + 1) (s.getD ⌊h2⌋₊ 0) = s.getD ⌊h2⌋₊ 0 :=
          getD_eq_default_rat s _ _ (by omega)
        have hint2 : interp s h2 = s[⌊h2⌋₊] := by
          unfold interp
          rw [hb2, ha2]
          ring
        rw [hint2]
    have hup1 : interp s h1 < s[⌊h1⌋₊ + 1] := by
      rw [hint1]
      have hneg : (h1 - (⌊h1⌋₊ : ℚ) - 1) * (s[⌊h1⌋₊ + 1] - s[⌊h1⌋₊]) < 0 :=
        mul_neg_of_neg_of_pos (by linarith) (sub_pos.mpr hab1)
      nlinarith
    have hmid : s[⌊h1⌋₊ + 1] ≤ s[⌊h2⌋₊] :=
      sorted_getElem_le s hs _ _ hl11n hl2n (by omega)
    linarith

/-- Sorting a duplicate-free column gives a strictly increasing list. -/
theorem sortedAsc_strict (xs : List ℚ) (hnd : xs.Nodup) :
    List.Pairwise (fun a b => a < b) (sortedAsc xs) := by
  have hsorted : List.Sorted (fun a b => a ≤ b) (sortedAsc xs) :=
    List.sorted_insertionSort _ xs
  have hperm : List.Perm (sortedAsc xs) xs := List.perm_insertionSort _ xs
  have hnd2 : (sortedAsc xs).Nodup := hperm.nodup_iff.mpr hnd
  exact hsorted.lt_of_le hnd2

/-- Every element carries exactly one of the three category labels. -/
theorem count_three (cs : List Cat) :
    cs.count Cat.low + cs.count Cat.average + cs.count Cat.high = cs.length := by
  induction cs with
  | nil => rfl
  | cons c tl ih =>
      cases c <;> simp [List.count_cons] <;> omega

/-- Bins are ordered by value: any Low value is below any Average value, and
any Average value is below any High value. -/
theorem assignCat_order (e1 e2 u v : ℚ) :
    (assignCat e1 e2 u = Cat.low → assignCat e1 e2 v = Cat.average → u < v) ∧
    (assignCat e1 e2 u = Cat.average → assignCat e1 e2 v = Cat.high → u < v) := by
  constructor
  · intro hu hv
    unfold assignCat at hu hv
    by_cases h1 : u ≤ e1
    · by_cases h2 : v ≤ e1
      · rw [if_pos h2] at hv
        cases hv
      · push_neg at h2
        linarith
    · rw [if_neg h1] at hu
      by_cases h2 : u ≤ e2
      · rw [if_pos h2] at hu
        cases hu
      · rw [if_neg h2] at hu
        cases hu
  · intro hu hv
    unfold assignCat at hu hv
    by_cases h1 : u ≤ e1
    · rw [if_pos h1] at hu
      cases hu
    · rw [if_neg h1] at hu
      by_cases h2 : u ≤ e2
      · by_cases h3 : v ≤ e1
        · rw [if_pos h3] at hv
          cases hv
        · by_cases h4 : v ≤ e2
          · rw [if_neg h3, if_pos h4] at hv
            cases hv
          · push_neg at h4
            linarith
      · rw [if_neg h2] at hu
        cases hu

/-- Values above and values not above an edge partition the column. -/
theorem countP_not_add (l : List ℚ) (e : ℚ) :
    l.countP (fun v => decide (¬ v ≤ e)) + l.countP (fun v => decide (v ≤ e))
      = l.length := by
  induction l with
  | nil => rfl
  | cons a tl ih =>
      rw [List.countP_cons, List.countP_cons]
      by_cases h : a ≤ e
      · have h1 : (decide (¬ a ≤ e)) = false := by simp [h]
        have h2 : (decide (a ≤ e)) = true := by simp [h]
        rw [h1, h2, if_neg Bool.false_ne_true, if_pos rfl, List.length_cons]
        omega
      · have h1 : (decide (¬ a ≤ e)) = true := by simp [h]
        have h2 : (decide (a ≤ e)) = false := by simp [h]
        rw [h1, h2, if_pos rfl, if_neg Bool.false_ne_true, List.length_cons]
        omega

/-- C5, amended.  For a metric column whose values are pairwise distinct and
number at least 3, qcut succeeds and partitions the values into exactly 3
non-empty right-closed bins ordered Low < Average < High by value, with bin
populations differing pairwise by at most 1; a value equal to a bin edge
falls into the lower bin. -/
theorem tertile_distinct_balanced (xs : List ℚ) (hnd : xs.Nodup)
    (hlen : 3 ≤ xs.length) :
    qcut3 xs = Except.ok
      (xs.map (assignCat (tertileEdge1 xs) (tertileEdge2 xs))) ∧
    tertileEdge1 xs < tertileEdge2 xs ∧
    (0 < (xs.map (assignCat (tertileEdge1 xs) (tertileEdge2 xs))).count Cat.low ∧
     0 < (xs.map (assignCat (tertileEdge1 xs) (tertileEdge2 xs))).count Cat.average ∧
     0 < (xs.map (assignCat (tertileEdge1 xs) (tertileEdge2 xs))).count Cat.high) ∧
    ((xs.map (assignCat (tertileEdge1 xs) (tertileEdge2 xs))).count Cat.low ≤
      (xs.map (assignCat (tertileEdge1 xs) (tertileEdge2 xs))).count Cat.average + 1 ∧
     (xs.map (assignCat (tertileEdge1 xs) (tertileEdge2 xs))).count Cat.average ≤
      (xs.map (assignCat (tertileEdge1 xs) (tertileEdge2 xs))).count Cat.low + 1 ∧
     (xs.map (assignCat (tertileEdge1 xs) (tertileEdge2 xs))).count Cat.low ≤
      (xs.map (assignCat (tertileEdge1 xs) (tertileEdge2 xs))).count Cat.high + 1 ∧
     (xs.map (assignCat (tertileEdge1 xs) (tertileEdge2 xs))).count Cat.high ≤
      (xs.map (assignCat (tertileEdge1 xs) (tertileEdge2 xs))).count Cat.low + 1 ∧
     (xs.map (assignCat (tertileEdge1 xs) (tertileEdge2 xs))).count Cat.average ≤
      (xs.map (assignCat (tertileEdge1 xs) (tertileEdge2 xs))).count Cat.high + 1 ∧
     (xs.map (assignCat (tertileEdge1 xs) (tertileEdge2 xs))).count Cat.high ≤
      (xs.map (assignCat (tertileEdge1 xs) (tertileEdge2 xs))).count Cat.average + 1) ∧
    (∀ u ∈ xs, ∀ v ∈ xs,
      (assignCat (tertileEdge1 xs) (tertileEdge2 xs) u = Cat.low →
        assignCat (tertileEdge1 xs) (tertileEdge2 xs) v = Cat.average → u < v) ∧
      (assignCat (tertileEdge1 xs) (tertileEdge2 xs) u = Cat.average →
        assignCat (tertileEdge1 xs) (tertileEdge2 xs) v = Cat.high → u < v)) ∧
    assignCat (tertileEdge1 xs) (tertileEdge2 xs) (tertileEdge1 xs) = Cat.low := by
  have hperm : List.Perm (sortedAsc xs) xs := List.perm_insertionSort _ xs
  have hslen : (sortedAsc xs).length = xs.length := hperm.length_eq
  have hs : List.Pairwise (fun a b => a < b) (sortedAsc xs) :=
    sortedAsc_strict xs hnd
  have hsn1 : 1 ≤ (sortedAsc xs).length := by omega
  have hM2 : (2:ℚ) ≤ (((sortedAsc xs).length - 1 : ℕ) : ℚ) := by
    have h2 : 2 ≤ (sortedAsc xs).length - 1 := by omega
    exact_mod_cast h2
  have he01 : quantileSorted (sortedAsc xs) 0 < tertileEdge1 xs := by
    refine interp_strictMono (sortedAsc xs) hs
      (0 * (((sortedAsc xs).length - 1 : ℕ) : ℚ))
      ((1/3) * (((sortedAsc xs).length - 1 : ℕ) : ℚ)) ?_ ?_ ?_
    · rw [zero_mul]
    · rw [zero_mul]
      nlinarith
    · linarith
  have he12 : tertileEdge1 xs < tertileEdge2 xs := by
    refine interp_strictMono (sortedAsc xs) hs
      ((1/3) * (((sortedAsc xs).length - 1 : ℕ) : ℚ))
      ((2/3) * (((sortedAsc xs).length - 1 : ℕ) : ℚ)) ?_ ?_ ?_
    · positivity
    · nlinarith
    · linarith
  have he23 : tertileEdge2 xs < quantileSorted (sortedAsc xs) 1 := by
    refine interp_strictMono (sortedAsc xs) hs
      ((2/3) * (((sortedAsc xs).length - 1 : ℕ) : ℚ))
      (1 * (((sortedAsc xs).length - 1 : ℕ) : ℚ)) ?_ ?_ ?_
    · positivity
    · nlinarith
    · rw [one_mul]
  have h02 := lt_trans he01 he12
  have h13 := lt_trans he12 he23
  have h03 := lt_trans h02 he23
  have hnodupE : ([quantileSorted (sortedAsc xs) 0, tertileEdge1 xs,
      tertileEdge2 xs, quantileSorted (sortedAsc xs) 1] : List ℚ).Nodup := by
    simp only [List.nodup_cons, List.mem_cons, List.not_mem_nil, or_false,
      List.nodup_nil, and_true]
    push_neg
    exact ⟨⟨ne_of_lt he01, ne_of_lt h02, ne_of_lt h03⟩,
      ⟨ne_of_lt he12, ne_of_lt h13⟩, ne_of_lt he23, not_false⟩
  have hok : qcut3 xs = Except.ok
      (xs.map (assignCat (tertileEdge1 xs) (tertileEdge2 xs))) := by
    unfold qcut3
    rw [if_pos hnodupE]
  have hA : xs.countP (fun v => decide (v ≤ tertileEdge1 xs)) =
      (xs.length - 1)/3 + 1 := by
    rw [show tertileEdge1 xs = interp (sortedAsc xs)
      ((1/3) * (((sortedAsc xs).length - 1 : ℕ) : ℚ)) from rfl]
    rw [← hperm.countP_eq]
    rw [countP_le_interp (sortedAsc xs) hs hsn1
      ((1/3) * (((sortedAsc xs).length - 1 : ℕ) : ℚ)) (by positivity)
      (by linarith)]
    congr 1
    rw [show (1/3 : ℚ) * (((sortedAsc xs).length - 1 : ℕ) : ℚ) =
      (((sortedAsc xs).length - 1 : ℕ) : ℚ) / ((3:ℕ) : ℚ) from by push_cast; ring]
    rw [Nat.floor_div_nat, Nat.floor_natCast, hslen]
  have hB : xs.countP (fun v => decide (v ≤ tertileEdge2 xs)) =
      (2 * (xs.length - 1))/3 + 1 := by
    rw [show tertileEdge2 xs = interp (sortedAsc xs)
      ((2/3) * (((sortedAsc xs).length - 1 : ℕ) : ℚ)) from rfl]
    rw [← hperm.countP_eq]
    rw [countP_le_interp (sortedAsc xs) hs hsn1
      ((2/3) * (((sortedAsc xs).length - 1 : ℕ) : ℚ)) (by positivity)
      (by linarith)]
    congr 1
    rw [show (2/3 : ℚ) * (((sortedAsc xs).length - 1 : ℕ) : ℚ) =
      ((2 * ((sortedAsc xs).length - 1) : ℕ) : ℚ) / ((3:ℕ) : ℚ) from by
        push_cast; ring]
    rw [Nat.floor_div_nat, Nat.floor_natCast, hslen]
  have hlow : (xs.map (assignCat (tertileEdge1 xs) (tertileEdge2 xs))).count
      Cat.low = xs.countP (fun v => decide (v ≤ tertileEdge1 xs)) := by
    show (xs.map (assignCat (tertileEdge1 xs) (tertileEdge2 xs))).countP
      (fun c => c == Cat.low) = _
    rw [List.countP_map]
    refine List.countP_congr ?_
    intro v hv
    show ((assignCat (tertileEdge1 xs) (tertileEdge2 xs) v == Cat.low) = true)
      ↔ (decide (v ≤ tertileEdge1 xs) = true)
    by_cases h1 : v ≤ tertileEdge1 xs
    · simp [assignCat, h1]
    · by_cases h2 : v ≤ tertileEdge2 xs
      · simp [assignCat, h1, h2]
      · simp [assignCat, h1, h2]
  have hhigh : (xs.map (assignCat (tertileEdge1 xs) (tertileEdge2 xs))).count
      Cat.high = xs.countP (fun v => decide (¬ v ≤ tertileEdge2 xs)) := by
    show (xs.map (assignCat (tertileEdge1 xs) (tertileEdge2 xs))).countP
      (fun c => c == Cat.high) = _
    rw [List.countP_map]
    refine List.countP_congr ?_
    intro v hv
    show ((assignCat (tertileEdge1 xs) (tertileEdge2 xs) v == Cat.high) = true)
      ↔ (decide (¬ v ≤ tertileEdge2 xs) = true)
    by_cases h1 : v ≤ tertileEdge1 xs
    · have h2 : v ≤ tertileEdge2 xs := le_trans h1 (le_of_lt he12)
      simp [assignCat, h1, h2]
    · by_cases h2 : v ≤ tertileEdge2 xs
      · simp [assignCat, h1, h2]
      · simp [assignCat, h1, h2]
  have hcompl := countP_not_add xs (tertileEdge2 xs)
  have hsum := count_three
    (xs.map (assignCat (tertileEdge1 xs) (tertileEdge2 xs)))
  rw [List.length_map] at hsum
  have hlowval : (xs.map (assignCat (tertileEdge1 xs) (tertileEdge2 xs))).count
      Cat.low = (xs.length - 1)/3 + 1 := by
    rw [hlow, hA]
  have hhighval : (xs.map (assignCat (tertileEdge1 xs) (tertileEdge2 xs))).count
      Cat.high = xs.length - ((2 * (xs.length - 1))/3 + 1) := by
    rw [hhigh]
    omega
  refine ⟨hok, he12, ⟨by omega, by omega, by omega⟩,
    ⟨by omega, by omega, by omega, by omega, by omega, by omega⟩, ?_, ?_⟩
  · intro u hu v hv
    exact assignCat_order (tertileEdge1 xs) (tertileEdge2 xs) u v
  · simp [assignCat]

/-- Witness for `tertile_distinct_balanced` at the distinct column
`[0, 1, 2, 3]`. -/
theorem tertile_distinct_balanced_witness :
    ([0, 1, 2, 3] : List ℚ).Nodup ∧ 3 ≤ ([0, 1, 2, 3] : List ℚ).length ∧
    qcut3 [0, 1, 2, 3] = Except.ok (([0, 1, 2, 3] : List ℚ).map
      (assignCat (tertileEdge1 [0, 1, 2, 3]) (tertileEdge2 [0, 1, 2, 3]))) :=
  ⟨by decide, by decide,
    (tertile_distinct_balanced [0, 1, 2, 3] (by decide) (by decide)).1⟩

/-- C5, counterexample.  The column `[1, 2, 2, 2, 2, 3, 4, 5, 6]` has six
distinct values (at least 3), qcut succeeds, yet the three bins have
populations 5, 1 and 3: with ties the populations can differ by more than 1,
refuting the equal-frequency claim as stated. -/
theorem tertile_unbalanced_cex :
    qcut3 [1, 2, 2, 2, 2, 3, 4, 5, 6] = Except.ok
      [Cat.low, Cat.low, Cat.low, Cat.low, Cat.low, Cat.average,
       Cat.high, Cat.high, Cat.high] ∧
    ([1, 2, 2, 2, 2, 3, 4, 5, 6] : List ℚ).dedup.length = 6 ∧
    ([Cat.low, Cat.low, Cat.low, Cat.low, Cat.low, Cat.average,
      Cat.high, Cat.high, Cat.high]).count Cat.low = 5 ∧
    ([Cat.low, Cat.low, Cat.low, Cat.low, Cat.low, Cat.average,
      Cat.high, Cat.high, Cat.high]).count Cat.average = 1 ∧
    ¬ ((5 : ℕ) ≤ 1 + 1) := by
  refine ⟨?_, by decide, by decide, by decide, by decide⟩
  have hfl1 : ⌊(8/3 : ℚ)⌋₊ = 2 := by
    rw [Nat.floor_eq_iff (by norm_num)]
    norm_num
  have hfl2 : ⌊(16/3 : ℚ)⌋₊ = 5 := by
    rw [Nat.floor_eq_iff (by norm_num)]
    norm_num
  norm_num [qcut3, tertileEdge1, tertileEdge2, quantileSorted, interp,
    sortedAsc, List.insertionSort, List.orderedInsert, assignCat,
    List.nodup_cons, hfl1, hfl2]

/-- C2, amended.  A metric column on which qcut fails (non-unique bin edges,
e.g. a degenerate constant column) makes the whole sequential factor
derivation of lines 386-406 return that library error: no metric's category
column is produced, rather than a declared error fatal only for the failing
metric. -/
theorem deriveFactorCategories_aborts (cols : List (List ℚ)) (c : List ℚ)
    (e : String) (he : qcut3 c = Except.error e) (hc : c ∈ cols) :
    ∃ msg, deriveFactorCategories cols = Except.error msg := by
  revert hc
  induction cols with
  | nil =>
      intro hc
      cases hc
  | cons d tl ih =>
      intro hc
      cases hd : qcut3 d with
      | error m =>
          refine ⟨m, ?_⟩
          simp [deriveFactorCategories, hd]
      | ok cats =>
          rcases List.mem_cons.mp hc with rfl | htl
          · rw [hd] at he
            cases he
          · rcases ih htl with ⟨msg, hmsg⟩
            refine ⟨msg, ?_⟩
            simp [deriveFactorCategories, hd, hmsg]

/-- The degenerate (constant) column fails qcut with the library error. -/
theorem qcut3_const_error :
    qcut3 [1, 1, 1, 1] = Except.error "Bin edges must be unique" := by
  have hfl0 : ⌊(0 : ℚ)⌋₊ = 0 := by norm_num
  have hfl1 : ⌊(1 : ℚ)⌋₊ = 1 := by norm_num
  have hfl2 : ⌊(2 : ℚ)⌋₊ = 2 := by
    rw [Nat.floor_eq_iff (by norm_num)]
    norm_num
  have hfl3 : ⌊(3 : ℚ)⌋₊ = 3 := by
    rw [Nat.floor_eq_iff (by norm_num)]
    norm_num
  norm_num [qcut3, tertileEdge1, tertileEdge2, quantileSorted, interp,
    sortedAsc, List.insertionSort, List.orderedInsert, List.nodup_cons,
    hfl0, hfl1, hfl2, hfl3]

/-- C2, counterexample.  With a degenerate first metric (constant column)
and a perfectly fine second metric, the derivation returns the raw pandas
ValueError text and produces no categories at all — the second metric's
derivation, although it would succeed on its own, is also aborted.  This
refutes the claim that a degenerate metric is surfaced as a declared
DegenerateDistributionError fatal only for that metric's category. -/
theorem degenerate_aborts_all_cex :
    deriveFactorCategories [[1, 1, 1, 1], [0, 1, 2, 3]] =
      Except.error "Bin edges must be unique" ∧
    qcut3 [0, 1, 2, 3] =
      Except.ok [Cat.low, Cat.low, Cat.average, Cat.high] := by
  constructor
  · show (match qcut3 [1, 1, 1, 1] with
      | Except.error e => Except.error e
      | Except.ok cats =>
          match deriveFactorCategories [[0, 1, 2, 3]] with
          | Except.error e => Except.error e
          | Except.ok others => Except.ok (cats :: others)) =
      Except.error "Bin edges must be unique"
    rw [qcut3_const_error]
  · have hfl0 : ⌊(0 : ℚ)⌋₊ = 0 := by norm_num
    have hfl1 : ⌊(1 : ℚ)⌋₊ = 1 := by norm_num
    have hfl2 : ⌊(2 : ℚ)⌋₊ = 2 := by
      rw [Nat.floor_eq_iff (by norm_num)]
      norm_num
    have hfl3 : ⌊(3 : ℚ)⌋₊ = 3 := by
      rw [Nat.floor_eq_iff (by norm_num)]
      norm_num
    norm_num [qcut3, tertileEdge1, tertileEdge2, quantileSorted, interp,
      sortedAsc, List.insertionSort, List.orderedInsert, assignCat,
      List.nodup_cons, hfl0, hfl1, hfl2, hfl3]

/-- Witness for `deriveFactorCategories_aborts` at the concrete column
pair. -/
theorem deriveFactorCategories_aborts_witness :
    qcut3 [1, 1, 1, 1] = Except.error "Bin edges must be unique" ∧
    ([1, 1, 1, 1] : List ℚ) ∈ [[1, 1, 1, 1], [0, 1, 2, 3]] ∧
    ∃ msg, deriveFactorCategories [[1, 1, 1, 1], [0, 1, 2, 3]] =
      Except.error msg :=
  ⟨qcut3_const_error, by decide,
    deriveFactorCategories_aborts [[1, 1, 1, 1], [0, 1, 2, 3]] [1, 1, 1, 1]
      "Bin edges must be unique" qcut3_const_error (by decide)⟩

end NarrativeViz
